import Mathlib

/-!
Formal model of the `FirstPersonController` class of the
three-first-person-controller library (src/FirstPersonController.ts),
together with the three.js vector / quaternion / math-utils operations it
relies on.  Numbers are modelled as real numbers; each definition mirrors
one source function.  The theorems below settle the behavioural claims
about the per-frame `update` pipeline (height blend, movement, jump,
gravity, ground resolution), the look integrator, configuration clamping
and disposal semantics.
-/

namespace FirstPerson

noncomputable section

/-- three.js `Vector3`: a triple of real coordinates. -/
structure Vec3 where
  x : ℝ
  y : ℝ
  z : ℝ

/-- `Vector3.add`. -/
def Vec3.add (a b : Vec3) : Vec3 := ⟨a.x + b.x, a.y + b.y, a.z + b.z⟩

/-- `Vector3.sub`. -/
def Vec3.sub (a b : Vec3) : Vec3 := ⟨a.x - b.x, a.y - b.y, a.z - b.z⟩

/-- `Vector3.multiplyScalar`. -/
def Vec3.multiplyScalar (a : Vec3) (s : ℝ) : Vec3 := ⟨a.x * s, a.y * s, a.z * s⟩

/-- `Vector3.divideScalar` (three.js multiplies by `1 / scalar`). -/
def Vec3.divideScalar (a : Vec3) (s : ℝ) : Vec3 := a.multiplyScalar (1 / s)

/-- `Vector3.addScaledVector`. -/
def Vec3.addScaledVector (a b : Vec3) (s : ℝ) : Vec3 :=
  ⟨a.x + b.x * s, a.y + b.y * s, a.z + b.z * s⟩

/-- `Vector3.dot`. -/
def Vec3.dot (a b : Vec3) : ℝ := a.x * b.x + a.y * b.y + a.z * b.z

/-- `Vector3.lengthSq`. -/
def Vec3.lengthSq (a : Vec3) : ℝ := a.x * a.x + a.y * a.y + a.z * a.z

/-- `Vector3.length`. -/
def Vec3.length (a : Vec3) : ℝ := Real.sqrt a.lengthSq

/-- `Vector3.normalize`: three.js divides by `this.length() || 1`, so a
zero vector is left unchanged rather than producing a division by zero. -/
def Vec3.normalize (a : Vec3) : Vec3 :=
  a.divideScalar (if a.length = 0 then 1 else a.length)

/-- `MathUtils.clamp (value, min, max) = Math.max(min, Math.min(max, value))`. -/
def clamp (value lo hi : ℝ) : ℝ := max lo (min hi value)

/-- `MathUtils.lerp (x, y, t) = (1 - t) * x + t * y`. -/
def lerp (a b t : ℝ) : ℝ := (1 - t) * a + t * b

/-- `MathUtils.degToRad`. -/
def degToRad (degrees : ℝ) : ℝ := degrees * (Real.pi / 180)

/-- `Vector3.angleTo`: `acos(clamp(dot / sqrt(lenSq * lenSq), -1, 1))`,
with `π/2` returned when the denominator is zero. -/
def Vec3.angleTo (a b : Vec3) : ℝ :=
  let denominator := Real.sqrt (a.lengthSq * b.lengthSq)
  if denominator = 0 then Real.pi / 2
  else Real.arccos (clamp (a.dot b / denominator) (-1) 1)

/-- three.js `Quaternion` (x, y, z, w). -/
structure Quat where
  x : ℝ
  y : ℝ
  z : ℝ
  w : ℝ

/-- `Quaternion.setFromAxisAngle` (axis assumed normalized by three.js). -/
def Quat.setFromAxisAngle (axis : Vec3) (angle : ℝ) : Quat :=
  let halfAngle := angle / 2
  let s := Real.sin halfAngle
  ⟨axis.x * s, axis.y * s, axis.z * s, Real.cos halfAngle⟩

/-- `Vector3.applyQuaternion`:
`t = 2 * cross(q.xyz, v); v' = v + q.w * t + cross(q.xyz, t)`. -/
def Vec3.applyQuaternion (v : Vec3) (q : Quat) : Vec3 :=
  let tx := 2 * (q.y * v.z - q.z * v.y)
  let ty := 2 * (q.z * v.x - q.x * v.z)
  let tz := 2 * (q.x * v.y - q.y * v.x)
  ⟨v.x + q.w * tx + (q.y * tz - q.z * ty),
   v.y + q.w * ty + (q.z * tx - q.x * tz),
   v.z + q.w * tz + (q.x * ty - q.y * tx)⟩

/-- The six semantic movement actions as reported by `KeyboardControls.
isActionPressed` during one frame. -/
structure Keys where
  forward : Bool
  backward : Bool
  left : Bool
  right : Bool
  jump : Bool
  sprint : Bool

/-- No action held. -/
def keysNone : Keys := ⟨false, false, false, false, false, false⟩

/-- `ControllerState` from types.ts. -/
structure ControllerState where
  position : Vec3
  velocity : Vec3
  yaw : ℝ
  pitch : ℝ
  onGround : Bool

/-- `PlayerConfig` from types.ts. -/
structure PlayerConfig where
  height : ℝ
  moveSpeed : ℝ
  jumpSpeed : ℝ
  gravity : ℝ

/-- Result type of a ground check (`{ onGround, groundNormal }`). -/
structure GroundCheckResult where
  onGround : Bool
  groundNormal : Option Vec3

/-- The fields of the `FirstPersonController` class that take part in the
movement / look state machine.  The camera, DOM element, keyboard and
pointer-lock manager are external collaborators; the per-frame action
state is passed into `update` explicitly, and callback invocations are
reported as counts in the return values. -/
structure Controller where
  state : ControllerState
  config : PlayerConfig
  lookSensitivity : ℝ
  maxPitch : ℝ
  sprintMultiplier : ℝ
  gravityFn : Option (Vec3 → Vec3)
  groundCheckFn : Option (ControllerState → ℝ → GroundCheckResult)
  crouchEnabled : Bool
  isCrouching : Bool
  crouchHeight : ℝ
  crouchSpeedMultiplier : ℝ
  currentHeight : ℝ
  maxStepHeight : Option ℝ
  maxSlopeAngle : Option ℝ
  disposed : Bool

/-- constants.ts `DEFAULT_PLAYER_CONFIG`. -/
def DEFAULT_PLAYER_CONFIG : PlayerConfig := ⟨1.6, 5, 8, 20⟩

/-- constants.ts `DEFAULT_LOOK_SENSITIVITY`. -/
def DEFAULT_LOOK_SENSITIVITY : ℝ := 0.0025

/-- constants.ts `DEFAULT_MAX_PITCH`. -/
def DEFAULT_MAX_PITCH : ℝ := Real.pi / 2 - 0.01

/-- constants.ts `DEFAULT_SPRINT_MULTIPLIER`. -/
def DEFAULT_SPRINT_MULTIPLIER : ℝ := 1.5

/-- `this.upVector = new THREE.Vector3(0, 1, 0)`. -/
def upVector : Vec3 := ⟨0, 1, 0⟩

/-- `this.heightLerpSpeed = 10`. -/
def heightLerpSpeed : ℝ := 10

/-- `applyOptions` stores `maxSlopeAngle` as
`degToRad(Math.max(0, Math.min(89.9, options.maxSlopeAngle)))`:
the configured value is interpreted in degrees, clamped to `[0, 89.9]`
and converted to radians. -/
def configureMaxSlopeAngle (value : ℝ) : ℝ := degToRad (max 0 (min 89.9 value))

/-- `applyOptions` stores `maxStepHeight` as `Math.max(0, options.maxStepHeight)`. -/
def configureMaxStepHeight (value : ℝ) : ℝ := max 0 value

/-- `getMoveSpeed`: base speed, times the sprint multiplier while sprint is
held, times the crouch speed multiplier while crouch is enabled and active. -/
def getMoveSpeed (c : Controller) (keys : Keys) : ℝ :=
  let speed := c.config.moveSpeed
  let speed := if keys.sprint then speed * c.sprintMultiplier else speed
  if c.crouchEnabled && c.isCrouching then speed * c.crouchSpeedMultiplier else speed

/-- `updateHeight`: lerp `currentHeight` toward the target (crouch or
standing) height with factor `min(1, delta * heightLerpSpeed)`, snap when
within `0.001`, and pin `position.y` to it while on the ground. -/
def updateHeight (c : Controller) (delta : ℝ) : Controller :=
  let targetHeight := if c.isCrouching && c.crouchEnabled then c.crouchHeight else c.config.height
  let alpha := min 1 (delta * heightLerpSpeed)
  let blended := lerp c.currentHeight targetHeight alpha
  let newHeight := if |blended - targetHeight| < 0.001 then targetHeight else blended
  let c := { c with currentHeight := newHeight }
  if c.state.onGround then
    { c with state := { c.state with
        position := { c.state.position with y := newHeight } } }
  else c

/-- The direction-summing prefix of `updateMovement` (lines 336–346 of the
source, factored out by name): derive the yaw-frame forward/right basis and
sum the basis vectors weighted by the held forward/backward/left/right
actions. -/
def computeMoveDirection (yaw : ℝ) (keys : Keys) : Vec3 :=
  let yawQuaternion := Quat.setFromAxisAngle upVector yaw
  let forwardVector := (Vec3.mk 0 0 (-1)).applyQuaternion yawQuaternion
  let rightVector := (Vec3.mk 1 0 0).applyQuaternion yawQuaternion
  let moveDirection : Vec3 := ⟨0, 0, 0⟩
  let moveDirection := if keys.forward then moveDirection.add forwardVector else moveDirection
  let moveDirection := if keys.backward then moveDirection.sub forwardVector else moveDirection
  let moveDirection := if keys.left then moveDirection.sub rightVector else moveDirection
  if keys.right then moveDirection.add rightVector else moveDirection

/-- `updateMovement`: horizontal displacement from the held actions in the
yaw frame, then the jump branch.  The second component counts how many
times `this.jumpCallback` was invoked. -/
def updateMovement (c : Controller) (keys : Keys) (delta : ℝ) : Controller × ℕ :=
  let moveDirection := computeMoveDirection c.state.yaw keys
  let c :=
    if moveDirection.lengthSq > 0 then
      let moveSpeed := getMoveSpeed c keys
      let tempDisplacement := moveDirection.normalize.multiplyScalar (moveSpeed * delta)
      { c with state := { c.state with
          position := c.state.position.add tempDisplacement,
          velocity := ⟨tempDisplacement.x / delta, c.state.velocity.y,
                       tempDisplacement.z / delta⟩ } }
    else
      { c with state := { c.state with
          velocity := ⟨0, c.state.velocity.y, 0⟩ } }
  if keys.jump && c.state.onGround then
    ({ c with state := { c.state with
        velocity := { c.state.velocity with y := c.config.jumpSpeed },
        onGround := false } }, 1)
  else
    (c, 0)

/-- `applyGravity`: semi-implicit Euler with either the injected gravity
function (applied to a clone of the position) or the default constant
`(0, -gravity, 0)`. -/
def applyGravity (c : Controller) (delta : ℝ) : Controller :=
  if delta ≤ 0 then c
  else
    let gravity :=
      match c.gravityFn with
      | some f => f c.state.position
      | none => Vec3.mk 0 (-c.config.gravity) 0
    let velocity := c.state.velocity.addScaledVector gravity delta
    { c with state := { c.state with
        velocity := velocity,
        position := { c.state.position with
          y := c.state.position.y + velocity.y * delta } } }

/-- `runGroundCheck`: the injected check on a snapshot of the state, or the
default "grounded iff `position.y <= currentHeight`" with the up vector as
the implied normal while grounded. -/
def runGroundCheck (c : Controller) (delta : ℝ) : GroundCheckResult :=
  match c.groundCheckFn with
  | some f => f c.state delta
  | none =>
    if c.state.position.y ≤ c.currentHeight then ⟨true, some upVector⟩
    else ⟨false, none⟩

/-- `resolveGround`: slope override, step override, then either snap to the
resting height (zeroing a downward vertical velocity) or clear `onGround`. -/
def resolveGround (c : Controller) (delta : ℝ) : Controller :=
  let result := runGroundCheck c delta
  let normal := result.groundNormal.map Vec3.normalize
  let onGround :=
    match result.onGround, c.maxSlopeAngle, normal with
    | true, some maxSlope, some n =>
      if upVector.angleTo n > maxSlope then false else true
    | og, _, _ => og
  if onGround then
    let desiredY := c.currentHeight
    let diff := desiredY - c.state.position.y
    let stepExceeded : Bool :=
      match c.maxStepHeight with
      | some maxStep => if |diff| > maxStep then true else false
      | none => false
    if stepExceeded then
      { c with state := { c.state with onGround := false } }
    else
      { c with state := { c.state with
          position := { c.state.position with y := desiredY },
          velocity := { c.state.velocity with
            y := if c.state.velocity.y < 0 then 0 else c.state.velocity.y },
          onGround := true } }
  else
    { c with state := { c.state with onGround := false } }

/-- `update(deltaSeconds)`: no-op when disposed, clamp the delta to `≥ 0`,
skip deltas below `1e-6`, then run the fixed pipeline
height → movement/jump → gravity → ground.  (`applyToCamera` writes to the
external camera object and does not touch controller state.)  The second
component counts jump-callback invocations during the call. -/
def update (c : Controller) (keys : Keys) (deltaSeconds : ℝ) : Controller × ℕ :=
  if c.disposed then (c, 0)
  else
    let delta := max 0 deltaSeconds
    if delta < 1e-6 then (c, 0)
    else
      let c1 := updateHeight c delta
      let m := updateMovement c1 keys delta
      let c3 := applyGravity m.1 delta
      (resolveGround c3 delta, m.2)

/-- The state mutation of `onMouseMoveHandler` once the handler's
eligibility gates (disposal, pointer-lock / focus) have passed:
`yaw -= movementX * lookSensitivity` and
`pitch = clamp(pitch - movementY * lookSensitivity, -maxPitch, maxPitch)`. -/
def onMouseMove (c : Controller) (movementX movementY : ℝ) : Controller :=
  if c.disposed then c
  else
    { c with state := { c.state with
        yaw := c.state.yaw - movementX * c.lookSensitivity,
        pitch := clamp (c.state.pitch - movementY * c.lookSensitivity)
                   (-c.maxPitch) c.maxPitch } }

/-- Folding a sequence of pointer-motion samples `(dx, dy)` through the
mouse-move handler. -/
def applyLookSamples (c : Controller) (samples : List (ℝ × ℝ)) : Controller :=
  samples.foldl (fun acc s => onMouseMove acc s.1 s.2) c

/-- `setMaxPitch`: clamp the bound itself into `[0.1, π/2 - 0.01]`, then
re-clamp the stored pitch into the new bound. -/
def setMaxPitch (c : Controller) (value : ℝ) : Controller :=
  let m := max 0.1 (min (Real.pi / 2 - 0.01) value)
  { c with
    maxPitch := m,
    state := { c.state with pitch := clamp c.state.pitch (-m) m } }

/-- `dispose`: idempotent; sets the `disposed` flag (listener and
pointer-lock teardown act on external resources only). -/
def dispose (c : Controller) : Controller :=
  if c.disposed then c else { c with disposed := true }

/-- `requestPointerLock`: returns early when disposed.  The boolean records
whether the external `pointerLock.requestLock()` call was made. -/
def requestPointerLock (c : Controller) : Controller × Bool :=
  if c.disposed then (c, false) else (c, true)

/-- `exitPointerLock`: returns early when disposed.  The boolean records
whether the external `pointerLock.exitLock()` call was made. -/
def exitPointerLock (c : Controller) : Controller × Bool :=
  if c.disposed then (c, false) else (c, true)

/-- Modelled from the spec: the ground-check verdict "after the slope and
step overrides" referred to by the ground-resolution contract — the raw
check result, overridden to not-grounded when a configured `maxSlopeAngle`
is exceeded by the reported normal's angle from up, then overridden to
not-grounded when a configured `maxStepHeight` is exceeded by
`|currentHeight - position.y|`. -/
def groundedAfterOverrides (c : Controller) (delta : ℝ) : Bool :=
  let result := runGroundCheck c delta
  let normal := result.groundNormal.map Vec3.normalize
  let onGround :=
    match result.onGround, c.maxSlopeAngle, normal with
    | true, some maxSlope, some n =>
      if upVector.angleTo n > maxSlope then false else true
    | og, _, _ => og
  if onGround then
    (match c.maxStepHeight with
     | some maxStep => if |c.currentHeight - c.state.position.y| > maxStep then false else true
     | none => true)
  else false

/-- The controller produced by the constructor with default options:
`initializeCamera` places the rig at `(0, height, -5)` with zero velocity,
zero yaw/pitch and `onGround = true`; the crouch height defaults to
`clamp(height * 0.6, 0.3, height)`. -/
def initialController : Controller where
  state := ⟨⟨0, 1.6, -5⟩, ⟨0, 0, 0⟩, 0, 0, true⟩
  config := DEFAULT_PLAYER_CONFIG
  lookSensitivity := DEFAULT_LOOK_SENSITIVITY
  maxPitch := DEFAULT_MAX_PITCH
  sprintMultiplier := DEFAULT_SPRINT_MULTIPLIER
  gravityFn := none
  groundCheckFn := none
  crouchEnabled := false
  isCrouching := false
  crouchHeight := 0.96
  crouchSpeedMultiplier := 0.6
  currentHeight := 1.6
  maxStepHeight := none
  maxSlopeAngle := none
  disposed := false

/-- The `speed` field of `getDebugInfo`:
`Math.hypot(velocity.x, velocity.z)`. -/
def horizontalSpeed (c : Controller) : ℝ :=
  Real.sqrt (c.state.velocity.x ^ 2 + c.state.velocity.z ^ 2)

/-- A controller configured with a trivial custom gravity function and a
custom ground check that always reports grounded without a normal; used to
exercise the ground invariant concretely. -/
def groundedProbe : Controller :=
  { initialController with
    gravityFn := some (fun _ => ⟨0, 0, 0⟩),
    groundCheckFn := some (fun _ _ => ⟨true, none⟩),
    state := ⟨⟨0, 1.6, -5⟩, ⟨0, 0, 0⟩, 0, 0, false⟩ }

/-- The initial controller with `sprintMultiplier` raised to `2`; used to
exercise the sprint-scaling property concretely. -/
def sprintProbe : Controller :=
  { initialController with sprintMultiplier := 2 }

/-- One default tick: `update` with no actions held at delta `0.016`. -/
def tickDefault (c : Controller) : Controller := (update c keysNone 0.016).1

/-- A controller running the default physics: no custom gravity or ground
check installed, crouch disabled, no slope/step limits, not disposed,
`currentHeight` settled at the configured standing height, and a positive
gravity constant. -/
structure DefaultShape (c : Controller) : Prop where
  gravityFn : c.gravityFn = none
  groundCheckFn : c.groundCheckFn = none
  crouchEnabled : c.crouchEnabled = false
  maxStepHeight : c.maxStepHeight = none
  maxSlopeAngle : c.maxSlopeAngle = none
  disposed : c.disposed = false
  currentHeight : c.currentHeight = c.config.height
  gravity : 0 < c.config.gravity

/-- The initial controller lifted to `y = 2`, above the resting height,
with `onGround = false`; used to exercise the settling property. -/
def fallProbe : Controller :=
  { initialController with state := ⟨⟨0, 2, -5⟩, ⟨0, 0, 0⟩, 0, 0, false⟩ }

/-- A controller whose custom ground check reports grounded with the
sideways surface normal `(1, 0, 0)` and whose `maxSlopeAngle` option was
configured as `2`. -/
def slopeProbe : Controller :=
  { initialController with
    groundCheckFn := some (fun _ _ => ⟨true, some ⟨1, 0, 0⟩⟩),
    maxSlopeAngle := some (configureMaxSlopeAngle 2) }

/-- A controller whose custom ground check reports grounded with the up
normal, with `maxSlopeAngle` configured as `45` and `maxStepHeight`
configured as `1`. -/
def slopeStepProbe : Controller :=
  { initialController with
    groundCheckFn := some (fun _ _ => ⟨true, some upVector⟩),
    maxSlopeAngle := some (configureMaxSlopeAngle 45),
    maxStepHeight := some (configureMaxStepHeight 1) }

/-- A controller with only `maxSlopeAngle` configured (as `45`), whose
custom ground check reports grounded with the up normal. -/
def slopeOnlyProbe : Controller :=
  { initialController with
    groundCheckFn := some (fun _ _ => ⟨true, some upVector⟩),
    maxSlopeAngle := some (configureMaxSlopeAngle 45) }

/-- A controller with only `maxStepHeight` configured (stored value `1`),
whose custom ground check reports grounded without a surface normal. -/
def stepOnlyProbe : Controller :=
  { initialController with
    groundCheckFn := some (fun _ _ => ⟨true, none⟩),
    maxStepHeight := some 1 }

/-- C5: `update(d)` with `d <= 0`, or with `0 < d` below the `1e-6` noise
floor, is a no-op: the controller (position, velocity, yaw, pitch,
`onGround`, `currentHeight`, every field) is unchanged and the jump
callback is not invoked.  The function is total, so no call can throw. -/
theorem update_noop_small_delta (c : Controller) (keys : Keys) (d : ℝ)
    (h : d ≤ 0 ∨ d < 1e-6) :
    update c keys d = (c, 0) := by
  have hm : max 0 d < 1e-6 := by
    rcases h with h | h
    · rw [max_eq_left h]; norm_num
    · exact max_lt (by norm_num) h
  cases hdis : c.disposed with
  | true => simp [update, hdis]
  | false => simp [update, hdis, hm]

/-- Witness for C5 at `d = -1` and at `d = 1e-7`. -/
theorem update_noop_small_delta_witness :
    (((-1 : ℝ) ≤ 0 ∨ (-1 : ℝ) < 1e-6) ∧
      update initialController keysNone (-1) = (initialController, 0)) ∧
    (((1e-7 : ℝ) ≤ 0 ∨ (1e-7 : ℝ) < 1e-6) ∧
      update initialController keysNone 1e-7 = (initialController, 0)) :=
  ⟨⟨Or.inl (by norm_num),
    update_noop_small_delta initialController keysNone (-1) (Or.inl (by norm_num))⟩,
   ⟨Or.inr (by norm_num),
    update_noop_small_delta initialController keysNone 1e-7 (Or.inr (by norm_num))⟩⟩

/-- After `dispose`, the `disposed` flag is set. -/
theorem dispose_disposed (c : Controller) : (dispose c).disposed = true := by
  unfold dispose
  split
  · assumption
  · rfl

/-- C9: after `dispose()`, `update` (any delta), `requestPointerLock` /
`lockPointer` and `exitPointerLock` / `unlockPointer` are safe no-ops: the
controller state is unchanged, no jump callback fires and no external
pointer-lock call is made; and `dispose` itself is idempotent. -/
theorem dispose_safety (c : Controller) (keys : Keys) (d : ℝ) :
    update (dispose c) keys d = (dispose c, 0) ∧
    requestPointerLock (dispose c) = (dispose c, false) ∧
    exitPointerLock (dispose c) = (dispose c, false) ∧
    dispose (dispose c) = dispose c := by
  have hd := dispose_disposed c
  refine ⟨?_, ?_, ?_, ?_⟩
  · unfold update; simp [hd]
  · unfold requestPointerLock; simp [hd]
  · unfold exitPointerLock; simp [hd]
  · have hfix : ∀ c' : Controller, c'.disposed = true → dispose c' = c' := by
      intro c' h
      unfold dispose
      rw [if_pos h]
    exact hfix _ hd

/-- C7: the height-blend step sets
`currentHeight := currentHeight + (target - currentHeight) * min(1, delta * 10)`
(target being the crouch height while crouching is enabled and active, the
standing height otherwise), snaps exactly to the target when the remaining
difference is below `0.001`, and pins `position.y` to the new
`currentHeight` exactly when `onGround` is true. -/
theorem updateHeight_blend (c : Controller) (d : ℝ) :
    (updateHeight c d).currentHeight =
      (let t := if c.isCrouching && c.crouchEnabled then c.crouchHeight else c.config.height
       let b := c.currentHeight + (t - c.currentHeight) * min 1 (d * 10)
       if |b - t| < 0.001 then t else b) ∧
    (updateHeight c d).state.position.y =
      (if c.state.onGround then (updateHeight c d).currentHeight
       else c.state.position.y) := by
  have hl : ∀ a b : ℝ, lerp a b (min 1 (d * heightLerpSpeed)) =
      a + (b - a) * min 1 (d * 10) := by
    intro a b
    unfold lerp heightLerpSpeed
    ring
  cases hog : c.state.onGround with
  | false =>
    simp only [updateHeight, hog, Bool.false_eq_true, if_false, hl]
    exact ⟨trivial, trivial⟩
  | true =>
    simp only [updateHeight, hog, if_true, hl]
    exact ⟨trivial, trivial⟩

/-- `resolveGround` in closed form: it snaps to the resting height exactly
when the overridden ground-check verdict is grounded, and otherwise only
clears `onGround`. -/
theorem resolveGround_eq (c : Controller) (d : ℝ) :
    resolveGround c d =
      (if groundedAfterOverrides c d = true then
        { c with state := { c.state with
            position := { c.state.position with y := c.currentHeight },
            velocity := { c.state.velocity with
              y := if c.state.velocity.y < 0 then 0 else c.state.velocity.y },
            onGround := true } }
       else { c with state := { c.state with onGround := false } }) := by
  rcases hr : runGroundCheck c d with ⟨og, gn⟩
  cases og <;> rcases hms : c.maxSlopeAngle with _ | ms <;> rcases hgn : gn with _ | n <;>
    rcases hstep : c.maxStepHeight with _ | step <;>
      simp only [resolveGround, groundedAfterOverrides, hr, hms, hstep, Option.map] <;>
        split_ifs <;> first | rfl | contradiction

/-- `updateMovement` does not change the `onGround` flag except through the
jump branch, and the movement branch keeps `velocity.y`.  C3: while the
jump action is held, an airborne controller keeps its vertical velocity
and fires no jump callback; a grounded controller gets
`velocity.y = jumpSpeed`, `onGround = false`, and exactly one jump
callback invocation, all within the same call. -/
theorem jump_only_from_ground (c : Controller) (keys : Keys) (d : ℝ) :
    (keys.jump = true → c.state.onGround = false →
      (updateMovement c keys d).1.state.velocity.y = c.state.velocity.y ∧
      (updateMovement c keys d).1.state.onGround = false ∧
      (updateMovement c keys d).2 = 0) ∧
    (keys.jump = true → c.state.onGround = true →
      (updateMovement c keys d).1.state.velocity.y = c.config.jumpSpeed ∧
      (updateMovement c keys d).1.state.onGround = false ∧
      (updateMovement c keys d).2 = 1) := by
  constructor
  · intro hj hg
    simp [updateMovement, hj, hg, apply_ite Controller.state,
      apply_ite ControllerState.onGround, apply_ite ControllerState.velocity,
      apply_ite Vec3.y]
  · intro hj hg
    simp [updateMovement, hj, hg, apply_ite Controller.state, apply_ite Controller.config,
      apply_ite ControllerState.onGround, apply_ite ControllerState.velocity,
      apply_ite PlayerConfig.jumpSpeed, apply_ite Vec3.y]

/-- Witness for C3 with the jump key held: once on an airborne controller,
once on the grounded initial controller. -/
theorem jump_only_from_ground_witness :
    ((⟨false, false, false, false, true, false⟩ : Keys).jump = true ∧
      initialController.state.onGround = true ∧
      ((updateMovement initialController ⟨false, false, false, false, true, false⟩ 0.016).1.state.velocity.y
          = initialController.config.jumpSpeed ∧
        (updateMovement initialController ⟨false, false, false, false, true, false⟩ 0.016).1.state.onGround = false ∧
        (updateMovement initialController ⟨false, false, false, false, true, false⟩ 0.016).2 = 1)) :=
  ⟨rfl, rfl,
    (jump_only_from_ground initialController ⟨false, false, false, false, true, false⟩ 0.016).2 rfl rfl⟩

/-- For deltas at or above the noise floor on a live controller, `update`
is exactly the pipeline height → movement → gravity → ground resolution. -/
theorem update_pipeline (c : Controller) (keys : Keys) (d : ℝ)
    (hd : (1e-6 : ℝ) ≤ d) (hdis : c.disposed = false) :
    update c keys d =
      (resolveGround (applyGravity ((updateMovement (updateHeight c d) keys d).1) d) d,
       (updateMovement (updateHeight c d) keys d).2) := by
  have h0 : max 0 d = d := max_eq_right (le_trans (by norm_num) hd)
  have h1 : ¬ d < 1e-6 := not_lt.2 hd
  simp [update, hdis, h0, h1]

/-- C1: in the ground-resolution step of an `update` with delta at or above
the `1e-6` floor, a verdict that is still grounded after the slope and
step overrides snaps `position.y` to `currentHeight`, zeroes `velocity.y`
exactly when it was negative (an upward velocity is kept), and sets
`onGround := true`; a not-grounded verdict just sets `onGround := false`.
The last conjunct places the step inside the `update` pipeline. -/
theorem ground_resolution_step (c : Controller) (keys : Keys) (d : ℝ)
    (hd : (1e-6 : ℝ) ≤ d) :
    (groundedAfterOverrides c d = true →
      (resolveGround c d).state.position.y = c.currentHeight ∧
      (resolveGround c d).state.velocity.y =
        (if c.state.velocity.y < 0 then 0 else c.state.velocity.y) ∧
      (resolveGround c d).state.onGround = true) ∧
    (groundedAfterOverrides c d = false →
      (resolveGround c d).state.onGround = false) ∧
    (c.disposed = false →
      update c keys d =
        (resolveGround (applyGravity ((updateMovement (updateHeight c d) keys d).1) d) d,
         (updateMovement (updateHeight c d) keys d).2)) := by
  refine ⟨fun hg => ?_, fun hg => ?_, fun hdis => update_pipeline c keys d hd hdis⟩
  · rw [resolveGround_eq, if_pos hg]
    try simp
  · rw [resolveGround_eq, if_neg (by simp [hg])]
    try simp

/-- The default ground check on the freshly constructed controller reports
grounded, and no override is configured. -/
theorem initial_groundedAfterOverrides :
    groundedAfterOverrides initialController 0.016 = true := by
  simp [groundedAfterOverrides, runGroundCheck, initialController]

/-- Witness for C1 on the initial controller at delta `0.016`. -/
theorem ground_resolution_step_witness :
    (1e-6 : ℝ) ≤ 0.016 ∧
    groundedAfterOverrides initialController 0.016 = true ∧
    ((resolveGround initialController 0.016).state.position.y = initialController.currentHeight ∧
      (resolveGround initialController 0.016).state.velocity.y =
        (if initialController.state.velocity.y < 0 then 0
         else initialController.state.velocity.y) ∧
      (resolveGround initialController 0.016).state.onGround = true) :=
  ⟨by norm_num, initial_groundedAfterOverrides,
    (ground_resolution_step initialController keysNone 0.016 (by norm_num)).1
      initial_groundedAfterOverrides⟩

/-- C10: at the end of any `update` with delta at or above the noise floor
on a live controller — whatever the configuration, including custom
gravity and ground-check functions and slope/step limits — `onGround =
true` implies that `position.y` equals `currentHeight` and that
`velocity.y` is non-negative. -/
theorem update_onGround_invariant (c : Controller) (keys : Keys) (d : ℝ)
    (hd : (1e-6 : ℝ) ≤ d) (hdis : c.disposed = false)
    (hog : (update c keys d).1.state.onGround = true) :
    (update c keys d).1.state.position.y = (update c keys d).1.currentHeight ∧
    0 ≤ (update c keys d).1.state.velocity.y := by
  rw [update_pipeline c keys d hd hdis] at hog ⊢
  rw [resolveGround_eq] at hog ⊢
  by_cases hg :
      groundedAfterOverrides
        (applyGravity ((updateMovement (updateHeight c d) keys d).1) d) d = true
  · rw [if_pos hg]
    refine ⟨rfl, ?_⟩
    show (0 : ℝ) ≤ if _ < 0 then 0 else _
    split_ifs with h
    · exact le_refl 0
    · exact le_of_not_lt h
  · rw [if_neg hg] at hog
    exact absurd hog (by simp)

/-- One tick of the probe ends grounded. -/
theorem groundedProbe_update_onGround :
    (update groundedProbe keysNone 0.016).1.state.onGround = true := by
  norm_num [update, updateHeight, updateMovement, computeMoveDirection, applyGravity,
    resolveGround, runGroundCheck, groundedProbe, initialController, keysNone, lerp,
    heightLerpSpeed, DEFAULT_PLAYER_CONFIG, Vec3.lengthSq, Vec3.addScaledVector,
    getMoveSpeed]

/-- Witness for C10 on the probe configuration at delta `0.016`. -/
theorem update_onGround_invariant_witness :
    ((1e-6 : ℝ) ≤ 0.016 ∧ groundedProbe.disposed = false ∧
      (update groundedProbe keysNone 0.016).1.state.onGround = true) ∧
    ((update groundedProbe keysNone 0.016).1.state.position.y =
        (update groundedProbe keysNone 0.016).1.currentHeight ∧
      0 ≤ (update groundedProbe keysNone 0.016).1.state.velocity.y) :=
  ⟨⟨by norm_num, rfl, groundedProbe_update_onGround⟩,
    update_onGround_invariant groundedProbe keysNone 0.016 (by norm_num) rfl
      groundedProbe_update_onGround⟩

/-- `clamp` into a symmetric interval bounds the absolute value. -/
theorem abs_clamp_le (x m : ℝ) (hm : 0 ≤ m) : |clamp x (-m) m| ≤ m := by
  unfold clamp
  rw [abs_le]
  exact ⟨le_max_left _ _, max_le (by linarith) (min_le_left _ _)⟩

/-- The mouse-move handler changes neither `maxPitch` nor `disposed`. -/
theorem onMouseMove_fields (c : Controller) (dx dy : ℝ) :
    (onMouseMove c dx dy).maxPitch = c.maxPitch ∧
    (onMouseMove c dx dy).disposed = c.disposed := by
  unfold onMouseMove
  split <;> exact ⟨rfl, rfl⟩

/-- One live mouse-move sample leaves `|pitch|` within `maxPitch`. -/
theorem onMouseMove_pitch_le (c : Controller) (dx dy : ℝ)
    (hdis : c.disposed = false) (hm : 0 ≤ c.maxPitch) :
    |(onMouseMove c dx dy).state.pitch| ≤ c.maxPitch := by
  unfold onMouseMove
  rw [if_neg (by simp [hdis])]
  exact abs_clamp_le _ _ hm

/-- Folding look samples changes neither `maxPitch` nor `disposed`. -/
theorem applyLookSamples_fields (c : Controller) (samples : List (ℝ × ℝ)) :
    (applyLookSamples c samples).maxPitch = c.maxPitch ∧
    (applyLookSamples c samples).disposed = c.disposed := by
  induction samples generalizing c with
  | nil => exact ⟨rfl, rfl⟩
  | cons s ss ih =>
    have hstep : applyLookSamples c (s :: ss) =
        applyLookSamples (onMouseMove c s.1 s.2) ss := rfl
    rw [hstep]
    have h1 := ih (onMouseMove c s.1 s.2)
    have h2 := onMouseMove_fields c s.1 s.2
    exact ⟨h1.1.trans h2.1, h1.2.trans h2.2⟩

/-- C4: for every sequence of pointer-motion samples and every
configuration with a non-negative `maxPitch`, `|pitch| ≤ maxPitch` holds
after every look update; and `setMaxPitch` first clamps the bound into
`[0.1, π/2 - 0.01]` and then immediately re-clamps the stored pitch into
the new bound. -/
theorem pitch_clamp_invariant :
    (∀ (c : Controller) (samples : List (ℝ × ℝ)),
      c.disposed = false → 0 ≤ c.maxPitch → samples ≠ [] →
      |(applyLookSamples c samples).state.pitch| ≤ (applyLookSamples c samples).maxPitch) ∧
    (∀ (c : Controller) (v : ℝ),
      0.1 ≤ (setMaxPitch c v).maxPitch ∧
      (setMaxPitch c v).maxPitch ≤ Real.pi / 2 - 0.01 ∧
      |(setMaxPitch c v).state.pitch| ≤ (setMaxPitch c v).maxPitch) := by
  constructor
  · intro c samples hdis hm hne
    rcases List.eq_nil_or_concat samples with rfl | ⟨ss, s, rfl⟩
    · exact absurd rfl hne
    · have hfold : applyLookSamples c (ss ++ [s]) =
          onMouseMove (applyLookSamples c ss) s.1 s.2 := by
        unfold applyLookSamples
        rw [List.foldl_append]
        rfl
      have h1 := applyLookSamples_fields c ss
      have h2 := onMouseMove_fields (applyLookSamples c ss) s.1 s.2
      rw [List.concat_eq_append, hfold, h2.1, h1.1]
      have hb : |(onMouseMove (applyLookSamples c ss) s.1 s.2).state.pitch| ≤
          (applyLookSamples c ss).maxPitch := by
        refine onMouseMove_pitch_le _ _ _ ?_ ?_
        · rw [h1.2]
          exact hdis
        · rw [h1.1]
          exact hm
      rw [h1.1] at hb
      exact hb
  · intro c v
    have hpi : (0.1 : ℝ) ≤ Real.pi / 2 - 0.01 := by
      have := Real.pi_gt_three
      linarith
    refine ⟨le_max_left _ _, max_le hpi (min_le_left _ _), ?_⟩
    exact abs_clamp_le _ _ (le_trans (by norm_num) (le_max_left _ _))

/-- The default `maxPitch` is non-negative. -/
theorem initial_maxPitch_nonneg : (0 : ℝ) ≤ initialController.maxPitch := by
  show (0 : ℝ) ≤ Real.pi / 2 - 0.01
  have := Real.pi_gt_three
  linarith

/-- Witness for C4: one concrete motion sample on the initial controller
and one concrete `setMaxPitch` call. -/
theorem pitch_clamp_invariant_witness :
    (initialController.disposed = false ∧ (0 : ℝ) ≤ initialController.maxPitch ∧
      ([((3 : ℝ), (5 : ℝ))] ≠ ([] : List (ℝ × ℝ))) ∧
      |(applyLookSamples initialController [(3, 5)]).state.pitch| ≤
        (applyLookSamples initialController [(3, 5)]).maxPitch) ∧
    (0.1 ≤ (setMaxPitch initialController 0.5).maxPitch ∧
      (setMaxPitch initialController 0.5).maxPitch ≤ Real.pi / 2 - 0.01 ∧
      |(setMaxPitch initialController 0.5).state.pitch| ≤
        (setMaxPitch initialController 0.5).maxPitch) :=
  ⟨⟨rfl, initial_maxPitch_nonneg, by simp,
    pitch_clamp_invariant.1 initialController [(3, 5)] rfl initial_maxPitch_nonneg (by simp)⟩,
   pitch_clamp_invariant.2 initialController 0.5⟩

/-- Rotating `(0, 0, -1)` by the yaw quaternion gives
`(-sin yaw, 0, -cos yaw)`. -/
theorem forward_of_yaw (θ : ℝ) :
    (Vec3.mk 0 0 (-1)).applyQuaternion (Quat.setFromAxisAngle upVector θ) =
      ⟨-Real.sin θ, 0, -Real.cos θ⟩ := by
  have hs := Real.sin_two_mul (θ / 2)
  have hc := Real.cos_two_mul (θ / 2)
  have hp := Real.sin_sq_add_cos_sq (θ / 2)
  rw [show 2 * (θ / 2) = θ by ring] at hs hc
  simp only [Vec3.applyQuaternion, Quat.setFromAxisAngle, upVector, Vec3.mk.injEq]
  refine ⟨?_, ?_, ?_⟩
  · linear_combination hs
  · ring
  · linear_combination hc + 2 * hp

/-- Rotating `(1, 0, 0)` by the yaw quaternion gives
`(cos yaw, 0, -sin yaw)`. -/
theorem right_of_yaw (θ : ℝ) :
    (Vec3.mk 1 0 0).applyQuaternion (Quat.setFromAxisAngle upVector θ) =
      ⟨Real.cos θ, 0, -Real.sin θ⟩ := by
  have hs := Real.sin_two_mul (θ / 2)
  have hc := Real.cos_two_mul (θ / 2)
  have hp := Real.sin_sq_add_cos_sq (θ / 2)
  rw [show 2 * (θ / 2) = θ by ring] at hs hc
  simp only [Vec3.applyQuaternion, Quat.setFromAxisAngle, upVector, Vec3.mk.injEq]
  refine ⟨?_, ?_, ?_⟩
  · linear_combination -hc - 2 * hp
  · ring
  · linear_combination hs

/-- C8: the horizontal-movement step.  `getMoveSpeed` is the base speed
times the sprint multiplier exactly when sprint is held, times the crouch
multiplier exactly when crouch is enabled and active; when the summed
input direction is non-zero the normalized, speed-and-delta-scaled
displacement is added to the position and `velocity.x/z` are reported as
displacement over delta; when it is zero, `velocity.x/z` are zeroed.
Consequently, holding forward + sprint with `moveSpeed = 5` and
`sprintMultiplier = 2` gives a horizontal speed of exactly
`5 * 2`, which exceeds `5`. -/
theorem movement_displacement (c : Controller) (keys : Keys) (d : ℝ)
    (hd : (1e-6 : ℝ) ≤ d) :
    getMoveSpeed c keys =
      c.config.moveSpeed * (if keys.sprint then c.sprintMultiplier else 1) *
        (if c.crouchEnabled && c.isCrouching then c.crouchSpeedMultiplier else 1) ∧
    (0 < (computeMoveDirection c.state.yaw keys).lengthSq →
      (updateMovement c keys d).1.state.position = c.state.position.add
        ((computeMoveDirection c.state.yaw keys).normalize.multiplyScalar
          (getMoveSpeed c keys * d)) ∧
      (updateMovement c keys d).1.state.velocity.x =
        ((computeMoveDirection c.state.yaw keys).normalize.multiplyScalar
          (getMoveSpeed c keys * d)).x / d ∧
      (updateMovement c keys d).1.state.velocity.z =
        ((computeMoveDirection c.state.yaw keys).normalize.multiplyScalar
          (getMoveSpeed c keys * d)).z / d) ∧
    (¬ 0 < (computeMoveDirection c.state.yaw keys).lengthSq →
      (updateMovement c keys d).1.state.velocity.x = 0 ∧
      (updateMovement c keys d).1.state.velocity.z = 0) ∧
    (c.config.moveSpeed = 5 → c.sprintMultiplier = 2 → c.crouchEnabled = false →
      keys = ⟨true, false, false, false, false, true⟩ →
      horizontalSpeed (updateMovement c keys d).1 = 5 * 2 ∧
      (5 : ℝ) < horizontalSpeed (updateMovement c keys d).1) := by
  have hd0 : d ≠ 0 := by
    intro h
    rw [h] at hd
    norm_num at hd
  have hms : getMoveSpeed c keys =
      c.config.moveSpeed * (if keys.sprint then c.sprintMultiplier else 1) *
        (if c.crouchEnabled && c.isCrouching then c.crouchSpeedMultiplier else 1) := by
    cases hs : keys.sprint <;> cases hcc : c.crouchEnabled && c.isCrouching <;>
      simp [getMoveSpeed, hs, hcc]
  have hmove : 0 < (computeMoveDirection c.state.yaw keys).lengthSq →
      (updateMovement c keys d).1.state.position = c.state.position.add
        ((computeMoveDirection c.state.yaw keys).normalize.multiplyScalar
          (getMoveSpeed c keys * d)) ∧
      (updateMovement c keys d).1.state.velocity.x =
        ((computeMoveDirection c.state.yaw keys).normalize.multiplyScalar
          (getMoveSpeed c keys * d)).x / d ∧
      (updateMovement c keys d).1.state.velocity.z =
        ((computeMoveDirection c.state.yaw keys).normalize.multiplyScalar
          (getMoveSpeed c keys * d)).z / d := by
    intro h
    simp only [updateMovement]
    rw [if_pos h]
    split <;> exact ⟨rfl, rfl, rfl⟩
  have hstop : ¬ 0 < (computeMoveDirection c.state.yaw keys).lengthSq →
      (updateMovement c keys d).1.state.velocity.x = 0 ∧
      (updateMovement c keys d).1.state.velocity.z = 0 := by
    intro h
    simp only [updateMovement]
    rw [if_neg h]
    split <;> exact ⟨rfl, rfl⟩
  refine ⟨hms, hmove, hstop, ?_⟩
  intro h5 h2 hce hkeys
  subst hkeys
  have hdirv : computeMoveDirection c.state.yaw ⟨true, false, false, false, false, true⟩ =
      ⟨-Real.sin c.state.yaw, 0, -Real.cos c.state.yaw⟩ := by
    simp [computeMoveDirection, forward_of_yaw, Vec3.add]
  have hpyth := Real.sin_sq_add_cos_sq c.state.yaw
  have hlen1 : (computeMoveDirection c.state.yaw
      ⟨true, false, false, false, false, true⟩).lengthSq = 1 := by
    rw [hdirv]
    show -Real.sin c.state.yaw * -Real.sin c.state.yaw + 0 * 0 +
        -Real.cos c.state.yaw * -Real.cos c.state.yaw = 1
    linear_combination hpyth
  have hpos : 0 < (computeMoveDirection c.state.yaw
      ⟨true, false, false, false, false, true⟩).lengthSq := by
    rw [hlen1]
    norm_num
  have hspeed : getMoveSpeed c ⟨true, false, false, false, false, true⟩ = 10 := by
    rw [hms, h5, h2, hce]
    norm_num
  obtain ⟨-, hvx, hvz⟩ := hmove hpos
  have hnorm : (computeMoveDirection c.state.yaw
      ⟨true, false, false, false, false, true⟩).normalize =
      ⟨-Real.sin c.state.yaw, 0, -Real.cos c.state.yaw⟩ := by
    unfold Vec3.normalize Vec3.length
    rw [hlen1, hdirv]
    norm_num [Vec3.divideScalar, Vec3.multiplyScalar]
  rw [hnorm, hspeed] at hvx hvz
  have hvx' : (updateMovement c ⟨true, false, false, false, false, true⟩ d).1.state.velocity.x =
      -Real.sin c.state.yaw * 10 := by
    rw [hvx]
    show -Real.sin c.state.yaw * (10 * d) / d = _
    rw [div_eq_iff hd0]
    ring
  have hvz' : (updateMovement c ⟨true, false, false, false, false, true⟩ d).1.state.velocity.z =
      -Real.cos c.state.yaw * 10 := by
    rw [hvz]
    show -Real.cos c.state.yaw * (10 * d) / d = _
    rw [div_eq_iff hd0]
    ring
  have hsum : (updateMovement c ⟨true, false, false, false, false, true⟩ d).1.state.velocity.x ^ 2 +
      (updateMovement c ⟨true, false, false, false, false, true⟩ d).1.state.velocity.z ^ 2 = 100 := by
    rw [hvx', hvz']
    linear_combination (100 : ℝ) * hpyth
  have hhs : horizontalSpeed (updateMovement c ⟨true, false, false, false, false, true⟩ d).1 = 10 := by
    unfold horizontalSpeed
    rw [hsum, show (100 : ℝ) = 10 ^ 2 by norm_num,
      Real.sqrt_sq (by norm_num : (0 : ℝ) ≤ 10)]
  rw [hhs]
  norm_num

/-- Witness for C8: forward + sprint on the raised-sprint probe at delta
`0.016` yields horizontal speed `10 > 5`. -/
theorem movement_displacement_witness :
    horizontalSpeed (updateMovement sprintProbe ⟨true, false, false, false, false, true⟩ 0.016).1 = 5 * 2 ∧
    (5 : ℝ) < horizontalSpeed (updateMovement sprintProbe ⟨true, false, false, false, false, true⟩ 0.016).1 :=
  (movement_displacement sprintProbe ⟨true, false, false, false, false, true⟩ 0.016
    (by norm_num)).2.2.2 rfl rfl rfl rfl

/-- Normalizing the unit vector `(1, 0, 0)` leaves it unchanged. -/
theorem normalize_unitX : (Vec3.mk 1 0 0).normalize = ⟨1, 0, 0⟩ := by
  unfold Vec3.normalize Vec3.length Vec3.lengthSq
  norm_num [Vec3.divideScalar, Vec3.multiplyScalar]

/-- The angle between up and the sideways normal `(1, 0, 0)` is `π/2`. -/
theorem angle_up_unitX : upVector.angleTo (Vec3.mk 1 0 0) = Real.pi / 2 := by
  unfold Vec3.angleTo Vec3.lengthSq Vec3.dot upVector clamp
  norm_num [Real.arccos_zero]

/-- Counterexample to C6 as stated: with `maxSlopeAngle` configured as `2`
— read as radians by the spec — and a reported surface normal at angle
`π/2 ≤ 2` from up, the claim predicts no override (still grounded), but
the code stores `degToRad(clamp(2, 0, 89.9))`, i.e. treats the option as
degrees, and overrides the result to not-grounded. -/
theorem slope_units_counterexample :
    upVector.angleTo ((Vec3.mk 1 0 0).normalize) ≤ 2 ∧
    (resolveGround slopeProbe 0.016).state.onGround = false := by
  have hle : upVector.angleTo ((Vec3.mk 1 0 0).normalize) ≤ 2 := by
    rw [normalize_unitX, angle_up_unitX]
    have := Real.pi_le_four
    linarith
  refine ⟨hle, ?_⟩
  have hgt : upVector.angleTo ((Vec3.mk 1 0 0).normalize) > configureMaxSlopeAngle 2 := by
    rw [normalize_unitX, angle_up_unitX]
    unfold configureMaxSlopeAngle degToRad
    rw [show max 0 (min (89.9 : ℝ) 2) = 2 by norm_num]
    have := Real.pi_pos
    linarith
  simp only [resolveGround, slopeProbe, initialController, runGroundCheck, Option.map]
  rw [if_pos hgt]
  rfl

/-- C6 amended: the configured `maxSlopeAngle` is interpreted in degrees —
`applyOptions` stores `degToRad(clamp(value, 0, 89.9))`
(`configureMaxSlopeAngle`) — and, in every configuration (slope-only,
step-only, with or without a reported normal, or both limits): a grounded
check result with a reported surface normal is overridden to not-grounded
exactly when the angle between world-up and the normalized normal exceeds
the stored slope limit, and a still-grounded result with a configured
`maxStepHeight` is overridden to not-grounded exactly when
`|currentHeight - position.y|` exceeds the stored step limit. -/
theorem slope_step_overrides :
    (∀ (c : Controller) (δ vS : ℝ) (n : Vec3),
      c.maxSlopeAngle = some (configureMaxSlopeAngle vS) →
      (runGroundCheck c δ).onGround = true →
      (runGroundCheck c δ).groundNormal = some n →
      upVector.angleTo n.normalize > configureMaxSlopeAngle vS →
      (resolveGround c δ).state.onGround = false) ∧
    (∀ (c : Controller) (δ vS : ℝ) (n : Vec3),
      c.maxSlopeAngle = some (configureMaxSlopeAngle vS) →
      c.maxStepHeight = none →
      (runGroundCheck c δ).onGround = true →
      (runGroundCheck c δ).groundNormal = some n →
      upVector.angleTo n.normalize ≤ configureMaxSlopeAngle vS →
      (resolveGround c δ).state.onGround = true) ∧
    (∀ (c : Controller) (δ t : ℝ),
      c.maxStepHeight = some t →
      (c.maxSlopeAngle = none ∨ (runGroundCheck c δ).groundNormal = none) →
      (runGroundCheck c δ).onGround = true →
      ((resolveGround c δ).state.onGround = true ↔
        |c.currentHeight - c.state.position.y| ≤ t)) ∧
    (∀ (c : Controller) (δ vS t : ℝ) (n : Vec3),
      c.maxSlopeAngle = some (configureMaxSlopeAngle vS) →
      c.maxStepHeight = some t →
      (runGroundCheck c δ).onGround = true →
      (runGroundCheck c δ).groundNormal = some n →
      ((resolveGround c δ).state.onGround = true ↔
        (upVector.angleTo n.normalize ≤ configureMaxSlopeAngle vS ∧
         |c.currentHeight - c.state.position.y| ≤ t))) := by
  refine ⟨?_, ?_, ?_, ?_⟩
  · intro c δ vS n hslope hog hn hangle
    rcases hr : runGroundCheck c δ with ⟨og, gn⟩
    rw [hr] at hog hn
    simp only at hog hn
    subst hog
    subst hn
    simp only [resolveGround, hr, hslope, Option.map]
    rw [if_pos hangle]
    simp
  · intro c δ vS n hslope hstep hog hn hangle
    rcases hr : runGroundCheck c δ with ⟨og, gn⟩
    rw [hr] at hog hn
    simp only at hog hn
    subst hog
    subst hn
    simp only [resolveGround, hr, hslope, hstep, Option.map]
    rw [if_neg (not_lt.2 hangle), if_pos rfl]
    simp
  · intro c δ t hstep hsl hog
    rcases hr : runGroundCheck c δ with ⟨og, gn⟩
    rw [hr] at hog
    simp only at hog
    subst hog
    rcases hsl with hsl | hsl
    · simp only [resolveGround, hr, hsl, hstep, Option.map]
      simp only [if_true]
      by_cases h2 : |c.currentHeight - c.state.position.y| > t
      · rw [if_pos h2]
        simp [h2.not_le]
      · rw [if_neg h2]
        simp [not_lt.1 h2]
    · rw [hr] at hsl
      simp only at hsl
      subst hsl
      rcases hms : c.maxSlopeAngle with _ | s <;>
        · simp only [resolveGround, hr, hms, hstep, Option.map]
          simp only [if_true]
          by_cases h2 : |c.currentHeight - c.state.position.y| > t
          · rw [if_pos h2]
            simp [h2.not_le]
          · rw [if_neg h2]
            simp [not_lt.1 h2]
  · intro c δ vS t n hslope hstep hog hn
    rcases hr : runGroundCheck c δ with ⟨og, gn⟩
    rw [hr] at hog hn
    simp only at hog hn
    subst hog
    subst hn
    simp only [resolveGround, hr, hslope, hstep, Option.map]
    by_cases h1 : upVector.angleTo n.normalize > configureMaxSlopeAngle vS
    · rw [if_pos h1]
      simp [h1.not_le]
    · rw [if_neg h1, if_pos rfl]
      by_cases h2 : |c.currentHeight - c.state.position.y| > t
      · rw [if_pos h2]
        simp [h2.not_le]
      · rw [if_neg h2]
        simp [not_lt.1 h1, not_lt.1 h2]

/-- The angle from up to the sideways normal `(1, 0, 0)` exceeds the
stored slope limit obtained from the configured value `2`. -/
theorem angle_up_unitX_gt_stored :
    upVector.angleTo ((Vec3.mk 1 0 0).normalize) > configureMaxSlopeAngle 2 := by
  rw [normalize_unitX, angle_up_unitX]
  unfold configureMaxSlopeAngle degToRad
  rw [show max 0 (min (89.9 : ℝ) 2) = 2 by norm_num]
  have := Real.pi_pos
  linarith

/-- The up normal, normalized, is at angle `0` from up. -/
theorem angle_up_up_normalize : upVector.angleTo upVector.normalize = 0 := by
  have h1 : upVector.normalize = upVector := by
    unfold Vec3.normalize Vec3.length Vec3.lengthSq upVector
    norm_num [Vec3.divideScalar, Vec3.multiplyScalar]
  rw [h1]
  unfold Vec3.angleTo Vec3.lengthSq Vec3.dot upVector clamp
  norm_num [Real.arccos_one]

/-- The stored slope limit for the configured value `45` is non-negative. -/
theorem configureMaxSlopeAngle_45_nonneg : (0 : ℝ) ≤ configureMaxSlopeAngle 45 := by
  unfold configureMaxSlopeAngle degToRad
  rw [show max 0 (min (89.9 : ℝ) 45) = 45 by norm_num]
  have := Real.pi_pos
  positivity

/-- Witness for the amended C6, exercising all four configurations: the
slope-only override on the sideways normal, the slope-only within-bound
case staying grounded, the step-only characterization with no reported
normal, and the both-limits characterization. -/
theorem slope_step_overrides_witness :
    (resolveGround slopeProbe 0.016).state.onGround = false ∧
    (resolveGround slopeOnlyProbe 0.016).state.onGround = true ∧
    ((resolveGround stepOnlyProbe 0.016).state.onGround = true ↔
      |stepOnlyProbe.currentHeight - stepOnlyProbe.state.position.y| ≤ 1) ∧
    ((resolveGround slopeStepProbe 0.016).state.onGround = true ↔
      (upVector.angleTo upVector.normalize ≤ configureMaxSlopeAngle 45 ∧
       |slopeStepProbe.currentHeight - slopeStepProbe.state.position.y| ≤
         configureMaxStepHeight 1)) :=
  ⟨slope_step_overrides.1 slopeProbe 0.016 2 ⟨1, 0, 0⟩ rfl rfl rfl
      angle_up_unitX_gt_stored,
   slope_step_overrides.2.1 slopeOnlyProbe 0.016 45 upVector rfl rfl rfl rfl
      (by rw [angle_up_up_normalize]; exact configureMaxSlopeAngle_45_nonneg),
   slope_step_overrides.2.2.1 stepOnlyProbe 0.016 1 rfl (Or.inr rfl) rfl,
   slope_step_overrides.2.2.2 slopeStepProbe 0.016 45 (configureMaxStepHeight 1)
      upVector rfl rfl rfl rfl⟩

/-- Height blend on an airborne controller whose `currentHeight` is
already settled at the standing height (crouch disabled) is the
identity. -/
theorem updateHeight_settled (c : Controller) (d : ℝ)
    (hce : c.crouchEnabled = false) (hch : c.currentHeight = c.config.height)
    (hog : c.state.onGround = false) :
    updateHeight c d = c := by
  have hlerp : lerp c.currentHeight c.config.height (min 1 (d * heightLerpSpeed)) =
      c.config.height := by
    rw [hch]
    unfold lerp
    ring
  simp only [updateHeight, hce, Bool.and_false, Bool.false_eq_true, if_false, hlerp,
    sub_self, abs_zero, hog]
  rw [if_pos (by norm_num : (0 : ℝ) < 0.001), ← hch, ← hce]

/-- Height blend on a grounded controller whose `currentHeight` is already
settled (crouch disabled) only re-pins `position.y` to the standing
height. -/
theorem updateHeight_settled_grounded (c : Controller) (d : ℝ)
    (hce : c.crouchEnabled = false) (hch : c.currentHeight = c.config.height)
    (hog : c.state.onGround = true) :
    updateHeight c d = { c with state := { c.state with
      position := { c.state.position with y := c.config.height } } } := by
  have hlerp : lerp c.currentHeight c.config.height (min 1 (d * heightLerpSpeed)) =
      c.config.height := by
    rw [hch]
    unfold lerp
    ring
  simp only [updateHeight, hce, Bool.and_false, Bool.false_eq_true, if_false, hlerp,
    sub_self, abs_zero, hog, if_true]
  rw [if_pos (by norm_num : (0 : ℝ) < 0.001), ← hch]

/-- With no actions held the summed move direction is the zero vector. -/
theorem computeMoveDirection_noKeys (yaw : ℝ) :
    computeMoveDirection yaw keysNone = ⟨0, 0, 0⟩ := by
  simp [computeMoveDirection, keysNone]

/-- With no actions held, `updateMovement` only zeroes the horizontal
velocity and fires no jump callback. -/
theorem updateMovement_noKeys (c : Controller) (d : ℝ) :
    updateMovement c keysNone d =
      ({ c with state := { c.state with
          velocity := ⟨0, c.state.velocity.y, 0⟩ } }, 0) := by
  have hlen : ¬ 0 < (computeMoveDirection c.state.yaw keysNone).lengthSq := by
    rw [computeMoveDirection_noKeys]
    norm_num [Vec3.lengthSq]
  simp only [updateMovement]
  rw [if_neg hlen]
  simp [keysNone]

/-- One default tick of an airborne, settled, default-shape controller:
identity height blend, zeroed horizontal velocity, semi-implicit Euler
fall, then the default ground check against the resting height — either
still above it (stay airborne) or snap to rest. -/
theorem tickDefault_airborne (c : Controller) (hs : DefaultShape c)
    (hog : c.state.onGround = false) :
    tickDefault c =
      (if c.config.height <
          c.state.position.y + (c.state.velocity.y + -c.config.gravity * 0.016) * 0.016 then
        { c with state := { c.state with
            position := { c.state.position with
              y := c.state.position.y +
                (c.state.velocity.y + -c.config.gravity * 0.016) * 0.016 },
            velocity := ⟨0, c.state.velocity.y + -c.config.gravity * 0.016, 0⟩,
            onGround := false } }
       else
        { c with state := { c.state with
            position := { c.state.position with y := c.config.height },
            velocity := ⟨0,
              if c.state.velocity.y + -c.config.gravity * 0.016 < 0 then 0
              else c.state.velocity.y + -c.config.gravity * 0.016, 0⟩,
            onGround := true } }) := by
  obtain ⟨hgf, hgcf, hce, hmsh, hmsa, hdis, hch, hg⟩ := hs
  unfold tickDefault
  rw [update_pipeline _ keysNone 0.016 (by norm_num) hdis]
  rw [updateHeight_settled _ _ hce hch hog, updateMovement_noKeys]
  dsimp only
  have hgrav : applyGravity
      { c with state := { c.state with velocity := ⟨0, c.state.velocity.y, 0⟩ } } 0.016 =
      { c with state := { c.state with
          position := { c.state.position with
            y := c.state.position.y +
              (c.state.velocity.y + -c.config.gravity * 0.016) * 0.016 },
          velocity := ⟨0, c.state.velocity.y + -c.config.gravity * 0.016, 0⟩ } } := by
    simp only [applyGravity]
    rw [if_neg (by norm_num : ¬ (0.016 : ℝ) ≤ 0)]
    try dsimp only
    rw [hgf]
    dsimp only [Vec3.addScaledVector]
    norm_num [Controller.mk.injEq, ControllerState.mk.injEq, Vec3.mk.injEq]
  rw [hgrav]
  simp only [resolveGround, runGroundCheck]
  dsimp only
  rw [hgcf, hch]
  dsimp only
  rcases le_or_lt (c.state.position.y +
      (c.state.velocity.y + -c.config.gravity * 0.016) * 0.016) c.config.height with
    hcase | hcase
  · rw [if_pos hcase, if_neg (not_lt.2 hcase)]
    dsimp only [Option.map]
    rw [hmsa]
    dsimp only
    rw [if_pos rfl, hmsh]
    dsimp only
    norm_num [Controller.mk.injEq, ControllerState.mk.injEq, Vec3.mk.injEq]
  · rw [if_neg (not_le.2 hcase), if_pos hcase]
    dsimp only [Option.map]
    rw [hmsa]
    try dsimp only
    norm_num [Controller.mk.injEq, ControllerState.mk.injEq, Vec3.mk.injEq]

/-- A resting default-shape controller — grounded at the resting height
with zero velocity — is a fixed point of the default tick. -/
theorem tickDefault_rest (c : Controller) (hs : DefaultShape c)
    (hog : c.state.onGround = true)
    (hy : c.state.position.y = c.config.height)
    (hv : c.state.velocity = ⟨0, 0, 0⟩) :
    tickDefault c = c := by
  obtain ⟨hgf, hgcf, hce, hmsh, hmsa, hdis, hch, hg⟩ := hs
  obtain ⟨⟨⟨px, py, pz⟩, ⟨vx, vy, vz⟩, yw, pt, og⟩, ⟨hh, ms, js, gr⟩,
    ls, mp, sm, gf, gcf, ce, ic, chh, csm, cur, msh, msa, dis⟩ := c
  dsimp only at hv hog hy hgf hgcf hce hmsh hmsa hdis hch hg
  simp only [Vec3.mk.injEq] at hv
  obtain ⟨hvx, hvy, hvz⟩ := hv
  subst hvx hvy hvz hog hy hgf hgcf hce hmsh hmsa hdis hch
  unfold tickDefault
  rw [update_pipeline _ keysNone 0.016 (by norm_num) rfl]
  rw [updateHeight_settled_grounded _ _ rfl rfl rfl, updateMovement_noKeys]
  dsimp only
  simp only [applyGravity]
  rw [if_neg (by norm_num : ¬ (0.016 : ℝ) ≤ 0)]
  dsimp only [Vec3.addScaledVector]
  simp only [resolveGround, runGroundCheck]
  try dsimp only
  rw [if_pos (by nlinarith : cur + (0 + -gr * 0.016) * 0.016 ≤ cur)]
  dsimp only [Option.map]
  rw [if_pos rfl]
  simp only [Bool.false_eq_true, if_false]
  rw [if_pos (by nlinarith : (0 : ℝ) + -gr * 0.016 < 0)]
  norm_num [Controller.mk.injEq, ControllerState.mk.injEq, Vec3.mk.injEq]

/-- While every tick up to `n` has reported airborne, the default-shape
invariants persist and velocity / position follow the closed forms of the
semi-implicit Euler integration. -/
theorem tickDefault_chain (c : Controller) (hs : DefaultShape c)
    (hy : c.config.height < c.state.position.y) :
    ∀ n : ℕ, (∀ j, j ≤ n → (tickDefault^[j] c).state.onGround = false) →
      DefaultShape (tickDefault^[n] c) ∧
      (tickDefault^[n] c).config = c.config ∧
      c.config.height < (tickDefault^[n] c).state.position.y ∧
      (tickDefault^[n] c).state.velocity.y =
        c.state.velocity.y - (n : ℝ) * (c.config.gravity * 0.016) ∧
      (tickDefault^[n] c).state.position.y =
        c.state.position.y + (n : ℝ) * (0.016 * c.state.velocity.y) -
          c.config.gravity * 0.016 ^ 2 * ((n : ℝ) * ((n : ℝ) + 1) / 2) := by
  intro n
  induction n with
  | zero =>
    intro _
    refine ⟨hs, rfl, hy, by norm_num, by norm_num⟩
  | succ k ih =>
    intro hall
    obtain ⟨ihs, ihcfg, ihy, ihvy, ihpy⟩ := ih (fun j hj => hall j (Nat.le_succ_of_le hj))
    have hogk : (tickDefault^[k] c).state.onGround = false := hall k (Nat.le_succ k)
    have hstep := tickDefault_airborne _ ihs hogk
    by_cases hbr : (tickDefault^[k] c).config.height <
        (tickDefault^[k] c).state.position.y +
          ((tickDefault^[k] c).state.velocity.y +
            -(tickDefault^[k] c).config.gravity * 0.016) * 0.016
    · rw [if_pos hbr] at hstep
      rw [Function.iterate_succ_apply', hstep]
      refine ⟨?_, ?_, ?_, ?_, ?_⟩
      · exact ⟨ihs.gravityFn, ihs.groundCheckFn, ihs.crouchEnabled, ihs.maxStepHeight,
          ihs.maxSlopeAngle, ihs.disposed, ihs.currentHeight, ihs.gravity⟩
      · exact ihcfg
      · show c.config.height < (tickDefault^[k] c).state.position.y +
          ((tickDefault^[k] c).state.velocity.y +
            -(tickDefault^[k] c).config.gravity * 0.016) * 0.016
        rw [ihcfg] at hbr ⊢
        exact hbr
      · show (tickDefault^[k] c).state.velocity.y +
          -(tickDefault^[k] c).config.gravity * 0.016 = _
        rw [ihcfg, ihvy]
        push_cast
        ring
      · show (tickDefault^[k] c).state.position.y +
          ((tickDefault^[k] c).state.velocity.y +
            -(tickDefault^[k] c).config.gravity * 0.016) * 0.016 = _
        rw [ihcfg, ihvy, ihpy]
        push_cast
        ring
    · exfalso
      have hcontra := hall (k + 1) (le_refl _)
      rw [Function.iterate_succ_apply', hstep, if_neg hbr] at hcontra
      simp at hcontra

/-- C2: with the default gravity (constant `(0, -gravity, 0)`,
`gravity > 0`), the default ground check (grounded iff
`position.y <= currentHeight`), no actions held and no custom functions
installed, a controller starting with `position.y` above `currentHeight`
and `onGround = false` reaches, after finitely many `update(0.016)` calls,
a state with `onGround = true` and `position.y = currentHeight` exactly,
and that state is a fixed point: every further `update(0.016)` leaves the
whole controller (position, velocity, `onGround` included) unchanged. -/
theorem gravity_settles (c : Controller) (hs : DefaultShape c)
    (hog : c.state.onGround = false)
    (hy : c.currentHeight < c.state.position.y) :
    ∃ N : ℕ,
      (tickDefault^[N] c).state.onGround = true ∧
      (tickDefault^[N] c).state.position.y = (tickDefault^[N] c).currentHeight ∧
      tickDefault (tickDefault^[N] c) = tickDefault^[N] c ∧
      ∀ m : ℕ, tickDefault^[m] (tickDefault^[N] c) = tickDefault^[N] c := by
  have hy' : c.config.height < c.state.position.y := by
    rw [← hs.currentHeight]
    exact hy
  -- Step 1: some tick eventually reports grounded.
  have hex : ∃ n : ℕ, (tickDefault^[n] c).state.onGround = true := by
    by_contra hnone
    push_neg at hnone
    have hall : ∀ j : ℕ, (tickDefault^[j] c).state.onGround = false := by
      intro j
      cases hb : (tickDefault^[j] c).state.onGround with
      | false => rfl
      | true => exact absurd hb (hnone j)
    have hApos : 0 < c.config.gravity * 0.016 ^ 2 / 2 := by
      have := hs.gravity
      positivity
    obtain ⟨n0, hn0⟩ := exists_nat_ge
      ((|c.state.position.y - c.config.height| + |0.016 * c.state.velocity.y|) /
        (c.config.gravity * 0.016 ^ 2 / 2))
    have hn1 : (1 : ℝ) ≤ ((n0 + 1 : ℕ) : ℝ) := by
      push_cast
      linarith [Nat.cast_nonneg (α := ℝ) n0]
    have hnM : (|c.state.position.y - c.config.height| + |0.016 * c.state.velocity.y|) /
        (c.config.gravity * 0.016 ^ 2 / 2) ≤ ((n0 + 1 : ℕ) : ℝ) := by
      refine le_trans hn0 ?_
      push_cast
      linarith
    have hX : |c.state.position.y - c.config.height| + |0.016 * c.state.velocity.y| ≤
        ((n0 + 1 : ℕ) : ℝ) * (c.config.gravity * 0.016 ^ 2 / 2) := by
      rw [div_le_iff₀ hApos] at hnM
      linarith
    obtain ⟨-, -, hyn, -, hpyn⟩ := tickDefault_chain c hs hy' (n0 + 1) (fun j _ => hall j)
    have h1 : c.state.position.y - c.config.height ≤
        |c.state.position.y - c.config.height| := le_abs_self _
    have h2 : 0.016 * c.state.velocity.y ≤ |0.016 * c.state.velocity.y| := le_abs_self _
    have h3 : 0 ≤ |c.state.position.y - c.config.height| := abs_nonneg _
    have h4 : 0 ≤ |0.016 * c.state.velocity.y| := abs_nonneg _
    have hyn' : (tickDefault^[n0 + 1] c).state.position.y ≤ c.config.height := by
      rw [hpyn]
      nlinarith [mul_le_mul_of_nonneg_left hX (le_trans zero_le_one hn1),
        mul_le_mul_of_nonneg_left h2 (le_trans zero_le_one hn1),
        mul_nonneg (sub_nonneg.2 hn1) h3]
    linarith [hyn, hyn']
  -- Step 2: take the first grounded tick.
  haveI : DecidablePred fun n : ℕ => (tickDefault^[n] c).state.onGround = true :=
    fun _ => instDecidableEqBool _ _
  obtain ⟨N, hN, hNmin⟩ : ∃ N : ℕ, (tickDefault^[N] c).state.onGround = true ∧
      ∀ k, k < N → (tickDefault^[k] c).state.onGround = false := by
    refine ⟨Nat.find hex, Nat.find_spec hex, fun k hk => ?_⟩
    have hmin := Nat.find_min hex hk
    cases hb : (tickDefault^[k] c).state.onGround with
    | false => rfl
    | true => exact absurd hb hmin
  have hNpos : N ≠ 0 := by
    intro h0
    rw [h0, Function.iterate_zero_apply] at hN
    rw [hog] at hN
    exact Bool.false_ne_true hN
  obtain ⟨K, rfl⟩ : ∃ K, N = K + 1 :=
    ⟨N - 1, (Nat.succ_pred_eq_of_pos (Nat.pos_of_ne_zero hNpos)).symm⟩
  obtain ⟨ihs, ihcfg, ihy, -, -⟩ :=
    tickDefault_chain c hs hy' K (fun j hj => hNmin j (Nat.lt_succ_of_le hj))
  have hogK : (tickDefault^[K] c).state.onGround = false := hNmin K (Nat.lt_succ_self K)
  have hstep := tickDefault_airborne _ ihs hogK
  -- Step 3: the landing tick must take the grounded branch.
  by_cases hbr : (tickDefault^[K] c).config.height <
      (tickDefault^[K] c).state.position.y +
        ((tickDefault^[K] c).state.velocity.y +
          -(tickDefault^[K] c).config.gravity * 0.016) * 0.016
  · exfalso
    rw [if_pos hbr] at hstep
    rw [Function.iterate_succ_apply', hstep] at hN
    exact Bool.false_ne_true hN
  · rw [if_neg hbr] at hstep
    have hvy' : (tickDefault^[K] c).state.velocity.y +
        -(tickDefault^[K] c).config.gravity * 0.016 < 0 := by
      have hle := not_lt.1 hbr
      rw [ihcfg] at hle
      rw [ihcfg]
      nlinarith [ihy, hle]
    rw [if_pos hvy'] at hstep
    have hland : tickDefault^[K + 1] c =
        { tickDefault^[K] c with state := { (tickDefault^[K] c).state with
            position := { (tickDefault^[K] c).state.position with
              y := (tickDefault^[K] c).config.height },
            velocity := ⟨0, 0, 0⟩,
            onGround := true } } := by
      rw [Function.iterate_succ_apply', hstep]
    have hshapeR : DefaultShape (tickDefault^[K + 1] c) := by
      rw [hland]
      exact ⟨ihs.gravityFn, ihs.groundCheckFn, ihs.crouchEnabled, ihs.maxStepHeight,
        ihs.maxSlopeAngle, ihs.disposed, ihs.currentHeight, ihs.gravity⟩
    have hogR : (tickDefault^[K + 1] c).state.onGround = true := hN
    have hyR : (tickDefault^[K + 1] c).state.position.y =
        (tickDefault^[K + 1] c).config.height := by
      rw [hland]
    have hvR : (tickDefault^[K + 1] c).state.velocity = ⟨0, 0, 0⟩ := by
      rw [hland]
    have hfix : tickDefault (tickDefault^[K + 1] c) = tickDefault^[K + 1] c :=
      tickDefault_rest _ hshapeR hogR hyR hvR
    refine ⟨K + 1, hN, ?_, hfix, fun m => Function.iterate_fixed hfix m⟩
    rw [hyR, hland]
    exact (ihs.currentHeight).symm

/-- The fall probe is a default-shape controller. -/
theorem fallProbe_shape : DefaultShape fallProbe :=
  ⟨rfl, rfl, rfl, rfl, rfl, rfl, rfl,
    by norm_num [fallProbe, initialController, DEFAULT_PLAYER_CONFIG]⟩

/-- Witness for C2: the fall probe starts at `y = 2`, above the resting
height `1.6`, airborne, and settles to the grounded fixed point. -/
theorem gravity_settles_witness :
    fallProbe.state.onGround = false ∧
    fallProbe.currentHeight < fallProbe.state.position.y ∧
    (∃ N : ℕ,
      (tickDefault^[N] fallProbe).state.onGround = true ∧
      (tickDefault^[N] fallProbe).state.position.y =
        (tickDefault^[N] fallProbe).currentHeight ∧
      tickDefault (tickDefault^[N] fallProbe) = tickDefault^[N] fallProbe ∧
      ∀ m : ℕ, tickDefault^[m] (tickDefault^[N] fallProbe) = tickDefault^[N] fallProbe) :=
  ⟨rfl, by norm_num [fallProbe, initialController],
    gravity_settles fallProbe fallProbe_shape rfl
      (by norm_num [fallProbe, initialController])⟩

end

end FirstPerson
